import Mathlib

/-!
Verification of the r2s3-cli image preview pipeline.

Shallow embedding of the Go sources:
  * `internal/tui/image/cache.go`   — disk cache (`CacheManager`)
  * the image downloader            — `DownloadWithRetry`, `isRetryableError`
  * the image manager / orchestrator — `generatePreview`, `previewImageAt`,
    `IsImageFile`, `getImageInfo`, `calculateDisplaySize`, `estimateCellUsage`,
    `GetStats`
  * the renderer's `calculateTerminalCells`

File-system and network effects are modelled by explicit oracle parameters
(`Except`-valued functions) and by explicit effect counters; machine floats
are modelled by exact rationals with explicit truncation; Go strings are
modelled by `String` with character-list processing.
-/

deriving instance DecidableEq for Except

namespace R2S3

/-! ### Character/string helpers (models of Go `strings`/`mime` stdlib calls) -/

/-- ASCII lower-casing of one character (model of the lower-casing done by
`strings.ToLower` / `mime.ParseMediaType`; the cached keys and content types
in this code base are ASCII). -/
def lowerChar (c : Char) : Char :=
  if 65 ≤ c.toNat ∧ c.toNat ≤ 90 then Char.ofNat (c.toNat + 32) else c

/-- Lower-case a character list. -/
def lowerChars (l : List Char) : List Char := l.map lowerChar

/-- Drop leading ASCII whitespace. -/
def dropLeadingWS (l : List Char) : List Char := l.dropWhile (fun c => c = ' ')

/-- Trim surrounding ASCII whitespace (model of the trimming performed by
`mime.ParseMediaType` on the media type). -/
def trimWS (l : List Char) : List Char :=
  (dropLeadingWS ((dropLeadingWS l.reverse).reverse))

/-- Whether `pat` occurs as a contiguous substring of `s`
(model of Go `strings.Contains`). -/
def containsSub (s pat : List Char) : Bool :=
  s.tails.any (fun t => pat.isPrefixOf t)

/-- The main media type of a content-type string: the part before any
parameters, trimmed and lower-cased (model of Go `mime.ParseMediaType`,
which returns the lower-cased `type/subtype`; parse errors on malformed
inputs are not modelled — the claims only exercise well-formed types). -/
def mainMediaType (contentType : String) : List Char :=
  lowerChars (trimWS (contentType.data.takeWhile (fun c => c ≠ ';')))

/-- The supported image media types (verbatim from `IsImageFile`). -/
def supportedImageTypes : List (List Char) :=
  ["image/jpeg".data, "image/jpg".data, "image/png".data, "image/gif".data,
   "image/webp".data, "image/bmp".data, "image/svg+xml".data]

/-- Model of `ImageManager.IsImageFile`: empty content type is rejected,
then the main media type must start with `image/` and be one of the
supported types. -/
def IsImageFile (contentType : String) : Bool :=
  if contentType = "" then false
  else
    let mainType := mainMediaType contentType
    if ¬ ("image/".data.isPrefixOf mainType) then false
    else supportedImageTypes.contains mainType

/-! ### Downloader retry logic (`DownloadWithRetry`, `isRetryableError`) -/

/-- The substrings that mark an error as retryable
(verbatim from `isRetryableError`). -/
def retryableMarkers : List (List Char) :=
  ["timeout".data, "connection reset".data, "connection refused".data,
   "temporary failure".data, "service unavailable".data,
   "internal server error".data, "bad gateway".data, "gateway timeout".data]

/-- Model of `ImageDownloader.isRetryableError`: the lower-cased error text
must contain one of the retryable markers.  (The Go `err == nil` guard cannot
fire inside the retry loop, where the error is always non-nil.) -/
def isRetryableError (e : String) : Bool :=
  let errorStr := lowerChars e.data
  retryableMarkers.any (fun m => containsSub errorStr m)

/-- One loop iteration structure of `DownloadWithRetry`.  `f i` is the result
of the `i`-th call to `DownloadImage`; `remaining` counts the loop iterations
still allowed by `attempt <= maxRetries` (backoff sleeps and context
cancellation between attempts are timing behaviour and are not modelled).
Returns the raw loop outcome together with the number of download attempts
performed. -/
def retryLoop (f : Nat → Except String String) (maxRetries : Nat) :
    Nat → Nat → Except String String × Nat
  | _attempt, 0 => (.error "", 0)
  | attempt, remaining + 1 =>
    match f attempt with
    | .ok r => (.ok r, 1)
    | .error e =>
      if ¬ isRetryableError e then (.error e, 1)
      else if maxRetries ≤ attempt then (.error e, 1)
      else
        let rec' := retryLoop f maxRetries (attempt + 1) remaining
        (rec'.1, rec'.2 + 1)

/-- Model of `ImageDownloader.DownloadWithRetry`: run the attempt loop
starting at attempt 0 with `maxRetries + 1` iterations allowed; on overall
failure wrap the last error together with the reported attempt count
`maxRetries + 1` (mirroring
`fmt.Errorf("download failed after %d attempts: %w", maxRetries+1, lastErr)`).
Returns the result and the number of attempts actually performed. -/
def downloadWithRetry (f : Nat → Except String String) (maxRetries : Nat) :
    Except (Nat × String) String × Nat :=
  let out := retryLoop f maxRetries 0 (maxRetries + 1)
  match out.1 with
  | .ok r => (.ok r, out.2)
  | .error e => (.error (maxRetries + 1, e), out.2)

/-! ### Disk cache data model (`cache.go`) -/

/-- Model of `CacheEntry` (`cache.go`).  Times are abstract instants
(integers); sizes are byte counts; the checksum is the digest byte list. -/
structure CacheEntry where
  key : String
  filePath : String
  size : Int
  accessTime : Int
  createTime : Int
  contentType : String
  checksum : List Nat
deriving DecidableEq, Repr

/-- Model of `calculateTotalSize`: the sum of the entry sizes. -/
def totalSize (l : List CacheEntry) : Int := (l.map (fun e => e.size)).sum

/-- The access-time order used by `cleanupByLRU` / `freeSpace` /
`GetLRUEntries` (oldest access first). -/
def accessLe (a b : CacheEntry) : Prop := a.accessTime ≤ b.accessTime

instance : DecidableRel accessLe :=
  fun a b => inferInstanceAs (Decidable (a.accessTime ≤ b.accessTime))

instance : IsTotal CacheEntry accessLe :=
  ⟨fun a b => le_total a.accessTime b.accessTime⟩

instance : IsTrans CacheEntry accessLe :=
  ⟨fun _ _ _ hab hbc => le_trans hab hbc⟩

/-- The `sort.Slice` call on access times in `cleanupByLRU` / `freeSpace`,
modelled by a sort under `accessLe` (the Go map iteration order feeding the
sort is arbitrary, so the model takes the entry list as given). -/
def sortByAccess (l : List CacheEntry) : List CacheEntry :=
  List.insertionSort accessLe l

/-- The shared removal loop of `cleanupByLRU` and `freeSpace`, with
`os.Remove` modelled as succeeding: walk the entries (already sorted by
access time), deleting and accumulating `removedSize`, until the removed
bytes reach `sizeToRemove`; the kept entries are returned. -/
def lruRemove : List CacheEntry → Int → Int → List CacheEntry
  | [], _, _ => []
  | e :: rest, sizeToRemove, removedSize =>
    if sizeToRemove ≤ removedSize then e :: rest
    else lruRemove rest sizeToRemove (removedSize + e.size)

/-- Model of `cleanupByLRU`: sort by ascending access time and delete
oldest-first until the freed bytes reach `currentSize - maxSize`. -/
def cleanupByLRU (index : List CacheEntry) (maxSize currentSize : Int) :
    List CacheEntry :=
  lruRemove (sortByAccess index) (currentSize - maxSize) 0

/-- Model of `Cleanup` under the default `CleanupPolicyLRU`: a no-op while
the total is within budget, otherwise LRU eviction. -/
def Cleanup (index : List CacheEntry) (maxSize : Int) : List CacheEntry :=
  let currentSize := totalSize index
  if currentSize ≤ maxSize then index
  else cleanupByLRU index maxSize currentSize

/-- Model of `freeSpace`: delete oldest-accessed entries until `sizeToFree`
bytes are freed. -/
def freeSpace (index : List CacheEntry) (sizeToFree : Int) : List CacheEntry :=
  lruRemove (sortByAccess index) sizeToFree 0

/-- Model of `PreallocateSpace`: a no-op when `currentSize + requiredSize`
fits, otherwise free `(currentSize + requiredSize) - maxSize` bytes
(the index save at the end is modelled as succeeding, so the call reports
no error). -/
def PreallocateSpace (index : List CacheEntry) (maxSize requiredSize : Int) :
    List CacheEntry :=
  let currentSize := totalSize index
  if currentSize + requiredSize ≤ maxSize then index
  else freeSpace index ((currentSize + requiredSize) - maxSize)

/-! ### Disk cache: `Put` / `VerifyChecksum` (checksum round trip) -/

/-- Association-list lookup, modelling a Go map read / a file read. -/
def aget {α : Type} (l : List (String × α)) (k : String) : Option α :=
  (l.find? (fun p => p.1 == k)).map (fun p => p.2)

/-- Association-list update, modelling a Go map write / a file write. -/
def aset {α : Type} (l : List (String × α)) (k : String) (v : α) :
    List (String × α) :=
  (k, v) :: l.filter (fun p => p.1 != k)

/-- The file-name base after the last `/` (model of `filepath.Base`
restricted to what `filepath.Ext` needs). -/
def baseNameChars (p : List Char) : List Char :=
  (p.reverse.takeWhile (fun c => c ≠ '/')).reverse

/-- Model of `filepath.Ext`: the suffix of the base name starting at its
last dot, or `[]` when the base name has no dot. -/
def extChars (p : List Char) : List Char :=
  let base := baseNameChars p
  let revTail := base.reverse.takeWhile (fun c => c ≠ '.')
  if revTail.length = base.length then [] else '.' :: revTail.reverse

/-- String wrapper of `extChars`. -/
def extOf (p : String) : String := ⟨extChars p.data⟩

/-- The cache state touched by `Put` / `VerifyChecksum`: the key-indexed
entry map and the on-disk files (path to byte content). -/
structure CacheFS where
  index : List (String × CacheEntry)
  files : List (String × List Nat)
deriving DecidableEq

/-- Model of `CacheManager.Put`: read the source file, copy it to
`nameOf key ++ ext` while hashing the copied bytes (`copyWithChecksum`
computes the digest of exactly the bytes written), create the entry and
store it in the index.  `hash` models the SHA-256 digest, `nameOf` the
MD5-derived cache file name `fmt.Sprintf("%x%s", md5(key), ext)`, `detect`
models `detectContentType` (with its `application/octet-stream` fallback
folded in). -/
def Put (hash : List Nat → List Nat) (nameOf : String → String)
    (detect : List Nat → String) (st : CacheFS) (key srcPath : String)
    (now : Int) : Except String (String × CacheFS) :=
  match aget st.files srcPath with
  | none => .error "open source failed"
  | some bytes =>
    let cachePath := nameOf key ++ extOf srcPath
    let entry : CacheEntry :=
      { key := key, filePath := cachePath, size := (bytes.length : Int),
        accessTime := now, createTime := now,
        contentType := detect bytes, checksum := hash bytes }
    .ok (cachePath,
      { index := aset st.index key entry,
        files := aset st.files cachePath bytes })

/-- Model of `CacheManager.VerifyChecksum`: look up the entry, re-read the
cached file, recompute the digest of the current bytes and compare it with
the stored checksum. -/
def VerifyChecksum (hash : List Nat → List Nat) (st : CacheFS) (key : String) :
    Except String Bool :=
  match aget st.index key with
  | none => .error "cache entry not found"
  | some entry =>
    match aget st.files entry.filePath with
    | none => .error "open failed"
    | some bytes => .ok (hash bytes == entry.checksum)

/-- Out-of-band alteration of a cached file's bytes. -/
def alterFile (st : CacheFS) (path : String) (newBytes : List Nat) : CacheFS :=
  { st with files := aset st.files path newBytes }

/-! ### Background maintenance stop (`startAutoCleanup` / `StopAutoCleanup`) -/

/-- The state of a Go channel variable. -/
inductive ChanState where
  | nilChan
  | openChan
  | closedChan
deriving DecidableEq, Repr

/-- The cancellation fields of `CacheManager` that `StopAutoCleanup`
touches: the `context.CancelFunc` (present after `startAutoCleanup`, and
safe to call repeatedly) and the `stopCleanup` channel. -/
structure CleanupControl where
  hasCancel : Bool
  cancelled : Bool
  stopChan : ChanState
deriving DecidableEq, Repr

/-- The cancellation state produced by `startAutoCleanup`: a live cancel
function and a freshly made (open) `stopCleanup` channel. -/
def startAutoCleanup : CleanupControl :=
  { hasCancel := true, cancelled := false, stopChan := .openChan }

/-- Model of `StopAutoCleanup`: call the cancel function if present (a Go
`context.CancelFunc` is idempotent), then `close(c.stopCleanup)` if the
channel variable is non-nil.  Go's `close` on an already-closed channel
panics, which the model surfaces as an error value. -/
def StopAutoCleanup (c : CleanupControl) : Except String CleanupControl :=
  let c1 := if c.hasCancel then { c with cancelled := true } else c
  match c1.stopChan with
  | .nilChan => .ok c1
  | .openChan => .ok { c1 with stopChan := .closedChan }
  | .closedChan => .error "panic: close of closed channel"

/-! ### Terminal cell footprint math (renderer `calculateTerminalCells`,
manager `estimateCellUsage`, manager `calculateDisplaySize`).
Go `float64` arithmetic is modelled by exact rationals; Go's
float-to-integer conversion truncates toward zero, modelled by `truncQ`
(within the claims' positive ranges the two agree and stay in range). -/

/-- Truncation toward zero of a rational, modelling Go's `int(...)` /
`uint32(...)` conversions from `float64`. -/
def truncQ (q : ℚ) : Int := if q < 0 then ⌈q⌉ else ⌊q⌋

/-- Model of the renderer's `calculateTerminalCells`: 8×16-px character
cells, a 2:1 character aspect correction on the row axis, a uniform scale
that is the smaller of the two axis ratios capped at 1, and a final guard
replacing zero cells by 1. -/
def calculateTerminalCells (imgWidth imgHeight maxWidth maxHeight : Int) :
    Int × Int :=
  let charAspect : ℚ := 2
  let availableCols : ℚ := (maxWidth : ℚ) / 8
  let availableRows : ℚ := (maxHeight : ℚ) / 16
  let imgCols : ℚ := (imgWidth : ℚ) / 8
  let imgRows : ℚ := (imgHeight : ℚ) / 16 * charAspect
  let scaleX := availableCols / imgCols
  let scaleY := availableRows / imgRows
  let scale0 := if scaleY < scaleX then scaleY else scaleX
  let scale := if scale0 > 1 then 1 else scale0
  let cols := truncQ (imgCols * scale)
  let rows := truncQ (imgRows * scale / charAspect)
  (if cols = 0 then 1 else cols, if rows = 0 then 1 else rows)

/-- Model of the manager's `estimateCellUsage`: the same cell math as the
renderer, with the pixel box taken from the configured display size, or
from the renderer capabilities when no display size is configured, and a
final `< 1` clamp. -/
def estimateCellUsage
    (maxDisplayWidth maxDisplayHeight capsW capsH displayW displayH : Int) :
    Int × Int :=
  let charW : ℚ := 8
  let charH : ℚ := 16
  let charAspect : ℚ := 2
  let fallback := maxDisplayWidth ≤ 0 ∨ maxDisplayHeight ≤ 0
  let maxW := if fallback then capsW else maxDisplayWidth
  let maxH := if fallback then capsH else maxDisplayHeight
  let availableCols : ℚ := (maxW : ℚ) / charW
  let availableRows : ℚ := (maxH : ℚ) / charH
  let imgCols : ℚ := (displayW : ℚ) / charW
  let imgRows : ℚ := (displayH : ℚ) / charH * charAspect
  let scaleX := availableCols / imgCols
  let scaleY := availableRows / imgRows
  let scale0 := if scaleY < scaleX then scaleY else scaleX
  let scale := if scale0 > 1 then 1 else scale0
  let cols := truncQ (imgCols * scale)
  let rows := truncQ (imgRows * scale / charAspect)
  (if cols < 1 then 1 else cols, if rows < 1 then 1 else rows)

/-- Image pixel dimensions. -/
structure ImageSize where
  width : Int
  height : Int
deriving DecidableEq, Repr

/-- Model of the manager's `calculateDisplaySize`: keep the original size
when it fits the capability box, otherwise scale down uniformly by the
smaller axis ratio. -/
def calculateDisplaySize (capsW capsH : Int) (originalSize : ImageSize) :
    ImageSize :=
  if originalSize.width ≤ capsW ∧ originalSize.height ≤ capsH then originalSize
  else
    let scaleX : ℚ := (capsW : ℚ) / (originalSize.width : ℚ)
    let scaleY : ℚ := (capsH : ℚ) / (originalSize.height : ℚ)
    let scale := if scaleY < scaleX then scaleY else scaleX
    { width := truncQ ((originalSize.width : ℚ) * scale),
      height := truncQ ((originalSize.height : ℚ) * scale) }

/-! ### Preview orchestrator (`generatePreview`, `previewImageAt`,
`getImageInfo`, `GetStats`) -/

/-- The supported image formats (`ImageFormat` constants). -/
inductive ImageFormat where
  | jpeg
  | png
  | gif
  | webp
  | bmp
  | svg
deriving DecidableEq, Repr

/-- The extension switch of `getImageInfo`. -/
def formatOfExt (ext : List Char) : Option ImageFormat :=
  if ext = ".jpg".data ∨ ext = ".jpeg".data then some .jpeg
  else if ext = ".png".data then some .png
  else if ext = ".gif".data then some .gif
  else if ext = ".webp".data then some .webp
  else if ext = ".bmp".data then some .bmp
  else if ext = ".svg".data then some .svg
  else none

/-- The typed errors `generatePreview` / `previewImageAt` can return
(`FormatError`, `NetworkError`, and the positioned render failure). -/
inductive PreviewError where
  | formatError (format filePath reason : String)
  | networkError (op msg : String)
  | renderError (msg : String)
deriving DecidableEq, Repr

/-- Model of `getImageInfo`: derive the format from the lower-cased file
extension (unknown extensions are a `FormatError`), and take the pixel size
from a best-effort header decode (`image.DecodeConfig`, modelled by the
`decodeCfg` oracle), falling back to 800×600 when the decode fails or
reports a non-positive size. -/
def getImageInfo (decodeCfg : String → Option ImageSize) (imagePath : String) :
    Except PreviewError (ImageFormat × ImageSize) :=
  let ext := lowerChars (extChars imagePath.data)
  match formatOfExt ext with
  | none => .error (.formatError ⟨ext⟩ imagePath "unknown file extension")
  | some format =>
    let size : ImageSize :=
      match decodeCfg imagePath with
      | some cfg => if 0 < cfg.width ∧ 0 < cfg.height then cfg else ⟨800, 600⟩
      | none => ⟨800, 600⟩
    .ok (format, size)

/-- The manager's running counters (`previewCount`, `cacheHitCount`,
`cacheMissCount`). -/
structure MgrCounters where
  previewCount : Int
  cacheHitCount : Int
  cacheMissCount : Int
deriving DecidableEq, Repr

/-- Counts of the externally visible operations one `generatePreview` call
performs: cache `Get` calls, cache `Delete` calls, downloader calls and
cache `Put` calls.  (These are the only cache/network operations in the
`generatePreview` source.) -/
structure Effects where
  cacheGets : Nat
  cacheDeletes : Nat
  downloads : Nat
  cachePuts : Nat
deriving DecidableEq, Repr

/-- No effect performed. -/
def Effects.noEffect : Effects :=
  { cacheGets := 0, cacheDeletes := 0, downloads := 0, cachePuts := 0 }

/-- The manager configuration fields entering the preview computation. -/
structure MgrConfig where
  maxDisplayWidth : Int
  maxDisplayHeight : Int
  capsMaxW : Int
  capsMaxH : Int
deriving DecidableEq, Repr

/-- Model of `ImagePreview` (the fields the orchestrator computes;
timestamps/latency are wall-clock and not modelled). -/
structure ImagePreviewM where
  fileKey : String
  filePath : String
  originalSize : ImageSize
  displaySize : ImageSize
  format : ImageFormat
  renderedData : String
  renderCols : Int
  renderRows : Int
  cacheHit : Bool
deriving DecidableEq, Repr

/-- String wrapper of `baseNameChars` (model of `filepath.Base`). -/
def baseNameOf (p : String) : String := ⟨baseNameChars p.data⟩

/-- The fallback payload `generatePreview` substitutes when
`renderer.RenderImage` fails (the `fmt.Sprintf` at its render-error
branch). -/
def renderFallbackText (localPath errMsg : String) : String :=
  "🖼️ Image file: " ++ baseNameOf localPath ++
  "\n⚠️  Could not render image: " ++ errMsg

/-- The tail of `generatePreview` after `localPath` is settled: get the
image info (typed error on failure), render — substituting the textual
fallback when `RenderImage` errors — compute display size and cell usage
and assemble the preview. -/
def renderPhase (cfg : MgrConfig) (counters : MgrCounters) (eff : Effects)
    (fileKey localPath : String) (cacheHit : Bool)
    (decodeCfg : String → Option ImageSize)
    (render : String → Except String String) :
    Except PreviewError ImagePreviewM × MgrCounters × Effects :=
  match getImageInfo decodeCfg localPath with
  | .error e => (.error e, counters, eff)
  | .ok (format, originalSize) =>
    let renderedData :=
      match render localPath with
      | .ok s => s
      | .error e => renderFallbackText localPath e
    let displaySize := calculateDisplaySize cfg.capsMaxW cfg.capsMaxH originalSize
    let cells := estimateCellUsage cfg.maxDisplayWidth cfg.maxDisplayHeight
      cfg.capsMaxW cfg.capsMaxH displaySize.width displaySize.height
    (.ok { fileKey := fileKey, filePath := localPath,
           originalSize := originalSize, displaySize := displaySize,
           format := format, renderedData := renderedData,
           renderCols := cells.1, renderRows := cells.2,
           cacheHit := cacheHit },
     counters, eff)

/-- Model of `generatePreview`: bump the preview counter, reject non-image
content types with a `FormatError` before any cache or network access,
consult the cache unless `force`, on a miss delete the stale entry when
`force`, download (failing the call with a `NetworkError` on download
error), `Put` the download into the cache but fall back to the raw
downloaded path when `Put` fails, then run the render phase.  The cache,
downloader and renderer results are supplied as oracles (`cacheGet`,
`download`, `put`, `decodeCfg`, `render`). -/
def generatePreview (cfg : MgrConfig) (counters : MgrCounters)
    (fileKey fileContentType : String) (force : Bool)
    (cacheGet : Option String)
    (download : Except String String)
    (put : String → Except String String)
    (decodeCfg : String → Option ImageSize)
    (render : String → Except String String) :
    Except PreviewError ImagePreviewM × MgrCounters × Effects :=
  let c1 := { counters with previewCount := counters.previewCount + 1 }
  if ¬ IsImageFile fileContentType then
    (.error (.formatError fileContentType fileKey "unsupported image format"),
     c1, .noEffect)
  else
    match (if force then none else cacheGet) with
    | some cachedPath =>
      let c2 := { c1 with cacheHitCount := c1.cacheHitCount + 1 }
      let eff : Effects :=
        { cacheGets := 1, cacheDeletes := 0, downloads := 0, cachePuts := 0 }
      renderPhase cfg c2 eff fileKey cachedPath true decodeCfg render
    | none =>
      let c2 := { c1 with cacheMissCount := c1.cacheMissCount + 1 }
      let effBase : Effects :=
        { cacheGets := if force then 0 else 1,
          cacheDeletes := if force then 1 else 0,
          downloads := 1, cachePuts := 0 }
      match download with
      | .error e => (.error (.networkError "download" e), c2, effBase)
      | .ok downloadedPath =>
        let eff := { effBase with cachePuts := 1 }
        let localPath :=
          match put downloadedPath with
          | .ok cachedPath => cachedPath
          | .error _ => downloadedPath
        renderPhase cfg c2 eff fileKey localPath false decodeCfg render

/-- Model of `previewImageAt`: run `generatePreview`, then re-render at the
requested cell position via `RenderImageAtCells` (the `renderAt` oracle);
a positioned-render failure fails the whole call with the renderer's
error.  (The start position only enters the emitted escape sequence, which
lives inside the oracle.) -/
def previewImageAt (cfg : MgrConfig) (counters : MgrCounters)
    (fileKey fileContentType : String) (force : Bool)
    (cacheGet : Option String)
    (download : Except String String)
    (put : String → Except String String)
    (decodeCfg : String → Option ImageSize)
    (render : String → Except String String)
    (renderAt : String → Except String String) :
    Except PreviewError ImagePreviewM × MgrCounters × Effects :=
  match generatePreview cfg counters fileKey fileContentType force cacheGet
      download put decodeCfg render with
  | (.error e, c, eff) => (.error e, c, eff)
  | (.ok p, c, eff) =>
    let cells := estimateCellUsage cfg.maxDisplayWidth cfg.maxDisplayHeight
      cfg.capsMaxW cfg.capsMaxH p.displaySize.width p.displaySize.height
    match renderAt p.filePath with
    | .error e => (.error (.renderError e), c, eff)
    | .ok placed =>
      let placedPreview : ImagePreviewM :=
        { p with renderedData := placed,
                 renderCols := cells.1, renderRows := cells.2 }
      (.ok placedPreview, c, eff)

/-- The statistics record assembled by `GetStats` (the fields derived from
the manager counters). -/
structure ImageManagerStats where
  totalPreviews : Int
  cacheHits : Int
  cacheMisses : Int
  cacheHitRate : ℚ
deriving DecidableEq

/-- The hit-rate formula of `GetStats`: `hits / previews * 100` when any
preview has been requested, `0` otherwise. -/
def cacheHitRate (counters : MgrCounters) : ℚ :=
  if 0 < counters.previewCount
  then (counters.cacheHitCount : ℚ) / (counters.previewCount : ℚ) * 100
  else 0

/-- Model of `GetStats` (its counter-derived fields). -/
def GetStats (counters : MgrCounters) : ImageManagerStats :=
  { totalPreviews := counters.previewCount,
    cacheHits := counters.cacheHitCount,
    cacheMisses := counters.cacheMissCount,
    cacheHitRate := cacheHitRate counters }

/-- Spec-side definition (from the spec's words, for comparison with the
code-derived cell math): the uniform scale factor `min(scaleX, scaleY)`
capped at 1.0, where the column-axis ratio is `maxW / w` and the row-axis
ratio carries the 2:1 character-aspect correction, `maxH / (2·h)`. -/
def specUniformScale (w h mw mh : Int) : ℚ :=
  min (min ((mw : ℚ) / (w : ℚ)) ((mh : ℚ) / (2 * (h : ℚ)))) 1

/-! ### Helper lemmas -/

lemma totalSize_nil : totalSize [] = 0 := rfl

lemma totalSize_cons (e : CacheEntry) (l : List CacheEntry) :
    totalSize (e :: l) = e.size + totalSize l := by
  simp [totalSize]

/-- The removal loop only ever drops a prefix: the kept entries are a
suffix of the input list. -/
lemma lruRemove_suffix (l : List CacheEntry) (t r : Int) :
    lruRemove l t r <:+ l := by
  induction l generalizing r with
  | nil => simp [lruRemove]
  | cons e rest ih =>
    simp only [lruRemove]
    split
    · exact List.suffix_refl _
    · exact (ih (r + e.size)).trans (List.suffix_cons e rest)

/-- Non-negative entry sizes give a non-negative total. -/
lemma totalSize_nonneg (l : List CacheEntry) (hsz : ∀ e ∈ l, 0 ≤ e.size) :
    0 ≤ totalSize l := by
  induction l with
  | nil => simp [totalSize_nil]
  | cons e rest ih =>
    have h1 : 0 ≤ e.size := hsz e (by simp)
    have h2 : 0 ≤ totalSize rest := ih (fun x hx => hsz x (by simp [hx]))
    rw [totalSize_cons]; omega

/-- Size bound for the removal loop: what is kept weighs at most the input
total minus the still-outstanding amount to free (clamped at zero). -/
lemma totalSize_lruRemove_le (l : List CacheEntry) (t : Int)
    (hsz : ∀ e ∈ l, 0 ≤ e.size) (r : Int) :
    totalSize (lruRemove l t r) ≤ max (totalSize l - (t - r)) 0 := by
  induction l generalizing r with
  | nil =>
    simp only [lruRemove, totalSize_nil]
    exact le_max_right _ _
  | cons e rest ih =>
    have hrest : ∀ x ∈ rest, 0 ≤ x.size := fun x hx => hsz x (by simp [hx])
    simp only [lruRemove]
    split
    · rename_i hstop
      refine le_max_of_le_left ?_
      omega
    · calc totalSize (lruRemove rest t (r + e.size)) ≤
            max (totalSize rest - (t - (r + e.size))) 0 := ih hrest (r + e.size)
        _ = max (totalSize (e :: rest) - (t - r)) 0 := by
            rw [totalSize_cons]; congr 1; ring

/-- Sorting by access time preserves the byte total. -/
lemma totalSize_sortByAccess (l : List CacheEntry) :
    totalSize (sortByAccess l) = totalSize l := by
  unfold totalSize sortByAccess
  exact ((List.perm_insertionSort accessLe l).map (fun e => e.size)).sum_eq

/-- Sorting by access time preserves membership. -/
lemma mem_sortByAccess {e : CacheEntry} {l : List CacheEntry} :
    e ∈ sortByAccess l ↔ e ∈ l :=
  (List.perm_insertionSort accessLe l).mem_iff

/-- The access-time sort is sorted ascending by access time. -/
lemma sorted_sortByAccess (l : List CacheEntry) :
    List.Sorted accessLe (sortByAccess l) :=
  List.sorted_insertionSort accessLe l

/-! ### C2 — idempotent maintenance stop -/

/-- C2: evaluation of the code at the failing input.  Against the claim
(and the spec's idempotent-stop requirement), calling `StopAutoCleanup`
twice on a cache whose background maintenance was started panics: the first
call closes the `stopCleanup` channel and returns normally, and the second
call reaches `close` on the already-closed channel, which panics in Go. -/
theorem stopAutoCleanup_twice_panics :
    ∃ c1, StopAutoCleanup startAutoCleanup = .ok c1 ∧
      StopAutoCleanup c1 = .error "panic: close of closed channel" :=
  ⟨{ hasCancel := true, cancelled := true, stopChan := .closedChan },
   by decide, by decide⟩

/-! ### C3 — LRU eviction invariant of `Cleanup` -/

/-- C3: after `Cleanup()` under the default LRU policy (with file removal
succeeding and a non-negative size budget), the remaining entries total at
most the configured max size — with no exception needed even for a single
oversized entry, since the loop will evict it too; the call is a no-op
while within budget; and when eviction runs, the kept entries are a suffix
of the entry list sorted ascending by access time, i.e. the evicted
entries are exactly an oldest-accessed-first prefix, deleted until the
freed bytes reach current minus max. -/
theorem cleanup_lru_bound_and_order (index : List CacheEntry) (maxSize : Int)
    (hmax : 0 ≤ maxSize) (hsz : ∀ e ∈ index, 0 ≤ e.size) :
    totalSize (Cleanup index maxSize) ≤ maxSize ∧
    (totalSize index ≤ maxSize → Cleanup index maxSize = index) ∧
    (maxSize < totalSize index →
      List.Sorted accessLe (sortByAccess index) ∧
      Cleanup index maxSize <:+ sortByAccess index) := by
  simp only [Cleanup, cleanupByLRU]
  by_cases hle : totalSize index ≤ maxSize
  · rw [if_pos hle]
    exact ⟨hle, fun _ => rfl, fun hlt => absurd hlt (not_lt.mpr hle)⟩
  · rw [if_neg hle]
    have hszs : ∀ e ∈ sortByAccess index, 0 ≤ e.size :=
      fun e he => hsz e (mem_sortByAccess.mp he)
    have hbound := totalSize_lruRemove_le (sortByAccess index)
      (totalSize index - maxSize) hszs 0
    rw [totalSize_sortByAccess] at hbound
    have hmaxeq : max (totalSize index - (totalSize index - maxSize - 0)) 0 = maxSize := by
      have : totalSize index - (totalSize index - maxSize - 0) = maxSize := by ring
      rw [this, max_eq_left hmax]
    rw [hmaxeq] at hbound
    exact ⟨hbound, fun h => absurd h hle,
      fun _ => ⟨sorted_sortByAccess index, lruRemove_suffix _ _ _⟩⟩

/-- C3 witness: the spec's own scenario — 19-, 20- and 20-byte entries with
ascending access times in a 50-byte cache — satisfies the hypotheses, and
`Cleanup` leaves at most 50 bytes (concretely, it evicts exactly the
oldest-accessed entry). -/
theorem cleanup_lru_bound_and_order_witness :
    totalSize (Cleanup
      [⟨"b", "/c/b", 20, 2, 2, "image/png", []⟩,
       ⟨"a", "/c/a", 19, 1, 1, "image/png", []⟩,
       ⟨"c", "/c/c", 20, 3, 3, "image/png", []⟩] 50) ≤ 50 :=
  (cleanup_lru_bound_and_order
    [⟨"b", "/c/b", 20, 2, 2, "image/png", []⟩,
     ⟨"a", "/c/a", 19, 1, 1, "image/png", []⟩,
     ⟨"c", "/c/c", 20, 3, 3, "image/png", []⟩] 50
    (by decide) (by decide)).1

/-! ### C8 — `PreallocateSpace` -/

/-- C8 counterexample: requesting more bytes than the whole configured max
size makes `PreallocateSpace` return without error (it evicts everything
and the final index save succeeds) while `currentSize + n ≤ maxSize` stays
false — on an empty cache with max size 10, `PreallocateSpace(20)` leaves
`0 + 20 ≤ 10` violated. -/
theorem preallocate_overlarge_counterexample :
    ¬ (totalSize (PreallocateSpace [] 10 20) + 20 ≤ 10) := by decide

/-- C8 amended: whenever the requested byte count is at most the configured
max size (and entry sizes are non-negative, with file removal succeeding),
after `PreallocateSpace(n)` the remaining total plus `n` is at most the max
size; the call is a no-op when the request already fits, and otherwise the
kept entries are a suffix of the access-time-sorted list — eviction is
oldest-accessed-first.  For `n` greater than the max size the call still
returns without error but cannot establish the bound (see the
counterexample). -/
theorem preallocate_space_bound (index : List CacheEntry)
    (maxSize requiredSize : Int)
    (hsz : ∀ e ∈ index, 0 ≤ e.size) (hreq : requiredSize ≤ maxSize) :
    totalSize (PreallocateSpace index maxSize requiredSize) + requiredSize ≤ maxSize ∧
    (totalSize index + requiredSize ≤ maxSize →
      PreallocateSpace index maxSize requiredSize = index) ∧
    (maxSize < totalSize index + requiredSize →
      List.Sorted accessLe (sortByAccess index) ∧
      PreallocateSpace index maxSize requiredSize <:+ sortByAccess index) := by
  simp only [PreallocateSpace, freeSpace]
  by_cases hle : totalSize index + requiredSize ≤ maxSize
  · rw [if_pos hle]
    exact ⟨hle, fun _ => rfl, fun hlt => absurd hlt (not_lt.mpr hle)⟩
  · rw [if_neg hle]
    have hszs : ∀ e ∈ sortByAccess index, 0 ≤ e.size :=
      fun e he => hsz e (mem_sortByAccess.mp he)
    have hbound := totalSize_lruRemove_le (sortByAccess index)
      (totalSize index + requiredSize - maxSize) hszs 0
    rw [totalSize_sortByAccess] at hbound
    have hmaxeq :
        max (totalSize index - (totalSize index + requiredSize - maxSize - 0)) 0 =
          maxSize - requiredSize := by
      have : totalSize index - (totalSize index + requiredSize - maxSize - 0) =
          maxSize - requiredSize := by ring
      rw [this, max_eq_left (by omega)]
    rw [hmaxeq] at hbound
    exact ⟨by omega, fun h => absurd h hle,
      fun _ => ⟨sorted_sortByAccess index, lruRemove_suffix _ _ _⟩⟩

/-- C8 witness: a 30-byte entry in a 40-byte cache with a 20-byte request
satisfies the amended hypotheses; `PreallocateSpace` evicts the entry and
the bound `total + 20 ≤ 40` holds. -/
theorem preallocate_space_bound_witness :
    totalSize (PreallocateSpace
      [⟨"a", "/c/a", 30, 1, 1, "image/png", []⟩] 40 20) + 20 ≤ 40 :=
  (preallocate_space_bound [⟨"a", "/c/a", 30, 1, 1, "image/png", []⟩] 40 20
    (by decide) (by decide)).1

/-- Lookup of a freshly written key returns the written value. -/
lemma aget_aset_same {α : Type} (l : List (String × α)) (k : String) (v : α) :
    aget (aset l k v) k = some v := by
  simp [aget, aset, List.find?]

/-! ### C4 — checksum round trip of `Put` / `VerifyChecksum` -/

/-- C4: for any digest function (`hash` stands for the SHA-256 used by
`copyWithChecksum`), after a successful `Put(key, sourcePath)` of a
readable source file, `VerifyChecksum(key)` returns true — the digest is
computed over exactly the bytes written to the cache file; and if the
cached file's bytes are altered afterwards to bytes with a different
digest (which is what altering bytes means for a collision-resistant
digest), `VerifyChecksum(key)` returns false. -/
theorem put_verifyChecksum_roundtrip
    (hash : List Nat → List Nat) (nameOf : String → String)
    (detect : List Nat → String) (st : CacheFS) (key srcPath : String)
    (bytes : List Nat) (now : Int)
    (hsrc : aget st.files srcPath = some bytes) :
    ∃ cachePath st',
      Put hash nameOf detect st key srcPath now = .ok (cachePath, st') ∧
      VerifyChecksum hash st' key = .ok true ∧
      (∀ newBytes, hash newBytes ≠ hash bytes →
        VerifyChecksum hash (alterFile st' cachePath newBytes) key = .ok false) := by
  refine ⟨nameOf key ++ extOf srcPath,
    { index := aset st.index key
        { key := key, filePath := nameOf key ++ extOf srcPath,
          size := (bytes.length : Int), accessTime := now, createTime := now,
          contentType := detect bytes, checksum := hash bytes },
      files := aset st.files (nameOf key ++ extOf srcPath) bytes }, ?_, ?_, ?_⟩
  · unfold Put
    rw [hsrc]
  · simp [VerifyChecksum, aget_aset_same]
  · intro newBytes hne
    simp only [VerifyChecksum, alterFile, aget_aset_same]
    simp [hne]

/-- C4 witness: with the identity digest on a 3-byte source file, `Put`
succeeds, `VerifyChecksum` is true right after, and flipping the cached
bytes to a list with a different digest makes it false. -/
theorem put_verifyChecksum_roundtrip_witness :
    ∃ cachePath st',
      Put (fun l => l) (fun _ => "cached") (fun _ => "application/octet-stream")
        ⟨[], [("src.png", [1, 2, 3])]⟩ "k" "src.png" 0 = .ok (cachePath, st') ∧
      VerifyChecksum (fun l => l) st' "k" = .ok true ∧
      (∀ newBytes, (fun l : List Nat => l) newBytes ≠ (fun l : List Nat => l) [1, 2, 3] →
        VerifyChecksum (fun l => l) (alterFile st' cachePath newBytes) "k" = .ok false) :=
  put_verifyChecksum_roundtrip (fun l => l) (fun _ => "cached")
    (fun _ => "application/octet-stream") ⟨[], [("src.png", [1, 2, 3])]⟩
    "k" "src.png" [1, 2, 3] 0 (by decide)

/-! ### C5 — retry bound of `DownloadWithRetry` -/

/-- The attempt loop performs at most as many download attempts as it has
iterations left. -/
lemma retryLoop_attempts_le (f : Nat → Except String String) (maxRetries : Nat) :
    ∀ remaining attempt, (retryLoop f maxRetries attempt remaining).2 ≤ remaining := by
  intro remaining
  induction remaining with
  | zero => intro attempt; simp [retryLoop]
  | succ n ih =>
    intro attempt
    simp only [retryLoop]
    cases f attempt with
    | ok r => simp
    | error e =>
      by_cases hret : isRetryableError e
      · by_cases hlast : maxRetries ≤ attempt
        · simp [hret, hlast]
        · simpa [hret, hlast] using ih (attempt + 1)
      · simp [hret]

/-- When every attempt fails with a retryable error, the attempt loop runs
through all its iterations and ends with the last attempt's error. -/
lemma retryLoop_exhaustion (f : Nat → Except String String) (es : Nat → String)
    (maxRetries : Nat)
    (herr : ∀ i, f i = .error (es i))
    (hret : ∀ i, isRetryableError (es i) = true) :
    ∀ remaining attempt, attempt + remaining = maxRetries + 1 → 1 ≤ remaining →
      retryLoop f maxRetries attempt remaining = (.error (es maxRetries), remaining) := by
  intro remaining
  induction remaining with
  | zero => intro attempt _ h1; omega
  | succ n ih =>
    intro attempt hsum _
    simp only [retryLoop, herr attempt]
    by_cases hlast : maxRetries ≤ attempt
    · have hatt : attempt = maxRetries := by omega
      have hn : n = 0 := by omega
      subst hatt hn
      simp [hret]
    · have hn1 : 1 ≤ n := by omega
      have := ih (attempt + 1) (by omega) hn1
      simp [hret attempt, hlast, this]

/-- C5: `DownloadWithRetry(ctx, key, n)` performs at most `n + 1` download
attempts; and when every attempt fails with a retryable error (exhaustion),
it performs exactly `n + 1` attempts and returns the last attempt's error
wrapped with the attempt count `n + 1`. -/
theorem downloadWithRetry_bound (f : Nat → Except String String) (maxRetries : Nat) :
    (downloadWithRetry f maxRetries).2 ≤ maxRetries + 1 ∧
    (∀ es : Nat → String,
      (∀ i, f i = .error (es i)) →
      (∀ i, isRetryableError (es i) = true) →
      downloadWithRetry f maxRetries =
        (.error (maxRetries + 1, es maxRetries), maxRetries + 1)) := by
  constructor
  · unfold downloadWithRetry
    have := retryLoop_attempts_le f maxRetries (maxRetries + 1) 0
    cases h : (retryLoop f maxRetries 0 (maxRetries + 1)).1 <;>
      simpa [h] using this
  · intro es herr hret
    have := retryLoop_exhaustion f es maxRetries herr hret (maxRetries + 1) 0
      (by omega) (by omega)
    simp [downloadWithRetry, this]

/-- C5 witness: with every attempt failing as `"timeout"` (retryable) and a
budget of 2 retries, `DownloadWithRetry` makes exactly 3 attempts and
returns the timeout error wrapped with attempt count 3. -/
theorem downloadWithRetry_bound_witness :
    (downloadWithRetry (fun _ => .error "timeout") 2).2 ≤ 3 ∧
    downloadWithRetry (fun _ => .error "timeout") 2 = (.error (3, "timeout"), 3) :=
  ⟨(downloadWithRetry_bound (fun _ => .error "timeout") 2).1,
   (downloadWithRetry_bound (fun _ => .error "timeout") 2).2
     (fun _ => "timeout") (fun _ => rfl)
     (fun _ => (by decide : isRetryableError "timeout" = true))⟩

/-- The render phase returns the manager counters unchanged. -/
lemma renderPhase_counters (cfg : MgrConfig) (counters : MgrCounters)
    (eff : Effects) (fileKey localPath : String) (cacheHit : Bool)
    (decodeCfg : String → Option ImageSize)
    (render : String → Except String String) :
    (renderPhase cfg counters eff fileKey localPath cacheHit decodeCfg render).2.1 =
      counters := by
  rcases h : getImageInfo decodeCfg localPath with e | ⟨fmt, sz⟩ <;>
    simp [renderPhase, h]

/-! ### C6 — non-image content types are rejected before any I/O -/

/-- C6: a `Preview` call whose metadata carries a content type that
`IsImageFile` rejects returns the typed `FormatError` at once, with the
preview counter bumped but with zero cache lookups, zero cache deletions,
zero downloads and zero cache writes. -/
theorem preview_rejects_non_image_before_io (cfg : MgrConfig)
    (counters : MgrCounters) (fileKey fileContentType : String) (force : Bool)
    (cacheGet : Option String) (download : Except String String)
    (put : String → Except String String)
    (decodeCfg : String → Option ImageSize)
    (render : String → Except String String)
    (h : IsImageFile fileContentType = false) :
    generatePreview cfg counters fileKey fileContentType force cacheGet download
        put decodeCfg render =
      (.error (.formatError fileContentType fileKey "unsupported image format"),
       { counters with previewCount := counters.previewCount + 1 },
       Effects.noEffect) := by
  simp [generatePreview, h]

/-- C6 witness: a `text/plain` preview is rejected with a format error and
performs no cache or network operation. -/
theorem preview_rejects_non_image_before_io_witness :
    IsImageFile "text/plain" = false ∧
    generatePreview ⟨800, 600, 8192, 4320⟩ ⟨0, 0, 0⟩ "doc.txt" "text/plain" false
        none (.error "unreachable") (fun _ => .error "unreachable")
        (fun _ => none) (fun _ => .error "unreachable") =
      (.error (.formatError "text/plain" "doc.txt" "unsupported image format"),
       ⟨1, 0, 0⟩, Effects.noEffect) :=
  ⟨by decide,
   preview_rejects_non_image_before_io ⟨800, 600, 8192, 4320⟩ ⟨0, 0, 0⟩ "doc.txt"
     "text/plain" false none (.error "unreachable") (fun _ => .error "unreachable")
     (fun _ => none) (fun _ => .error "unreachable") (by decide)⟩

/-! ### C7 — cache-write failure never fails a Preview -/

/-- C7: on a cache miss with a successful download, if the cache `Put`
fails, `generatePreview` silently falls back to the raw downloaded path:
whenever the downloaded file itself yields valid image info, the preview
succeeds, reports the downloaded path and is marked as a non-hit — the
`Put` failure is never surfaced as an error. -/
theorem preview_survives_cache_put_failure (cfg : MgrConfig)
    (counters : MgrCounters) (fileKey fileContentType dlPath errPut : String)
    (force : Bool) (decodeCfg : String → Option ImageSize)
    (render : String → Except String String)
    (fmt : ImageFormat) (sz : ImageSize)
    (himg : IsImageFile fileContentType = true)
    (hinfo : getImageInfo decodeCfg dlPath = .ok (fmt, sz)) :
    (generatePreview cfg counters fileKey fileContentType force none
        (.ok dlPath) (fun _ => .error errPut) decodeCfg
        render).1.toOption.map (fun p => (p.filePath, p.cacheHit)) =
      some (dlPath, false) := by
  cases hr : render dlPath with
  | ok s =>
    simp [generatePreview, renderPhase, himg, hinfo, hr, ite_self,
      Except.toOption]
  | error e =>
    simp [generatePreview, renderPhase, himg, hinfo, hr, ite_self,
      Except.toOption]

/-- C7 witness: with a failing cache `Put` ("disk full") and a successful
download to `/tmp/a.png`, the preview succeeds on the raw downloaded
path. -/
theorem preview_survives_cache_put_failure_witness :
    IsImageFile "image/png" = true ∧
    (generatePreview ⟨800, 600, 8192, 4320⟩ ⟨0, 0, 0⟩ "a.png" "image/png" false
        none (.ok "/tmp/a.png") (fun _ => .error "disk full")
        (fun _ => some ⟨100, 100⟩)
        (fun _ => .ok "DATA")).1.toOption.map (fun p => (p.filePath, p.cacheHit)) =
      some ("/tmp/a.png", false) :=
  ⟨by decide,
   preview_survives_cache_put_failure ⟨800, 600, 8192, 4320⟩ ⟨0, 0, 0⟩ "a.png"
     "image/png" "/tmp/a.png" "disk full" false (fun _ => some ⟨100, 100⟩)
     (fun _ => .ok "DATA") .png ⟨100, 100⟩ (by decide) (by decide)⟩

/-! ### C1 — render failures and the fate of the Preview -/

/-- C1 counterexample: at a concrete image-typed key whose download and
cache `Put` succeed but whose `RenderImage` fails, `generatePreview` does
NOT fail — it returns a successful `ImagePreview` (the claim says the
Preview operation fails with a render error). -/
theorem render_failure_preview_succeeds_cex :
    ((generatePreview ⟨800, 600, 8192, 4320⟩ ⟨0, 0, 0⟩ "a.png" "image/png" false
      none (.ok "/tmp/a.png") (fun _ => .ok "/cache/a.png")
      (fun _ => some ⟨100, 100⟩) (fun _ => .error "encode failed")).1).isOk =
      true := by rfl

/-- C1 amended: a `RenderImage` failure does not fail the plain Preview —
`generatePreview` succeeds and substitutes the textual fallback payload
naming the render error; only the positioned variant (`previewImageAt`),
when `RenderImageAtCells` fails, fails the call with the renderer's error;
in both cases the call performs no cache deletion, so the downloaded or
cached file stays on disk for a later retry. -/
theorem render_failure_amended (cfg : MgrConfig) (counters : MgrCounters)
    (fileKey fileContentType cachedPath e : String)
    (decodeCfg : String → Option ImageSize) (fmt : ImageFormat) (sz : ImageSize)
    (download : Except String String) (put : String → Except String String)
    (himg : IsImageFile fileContentType = true)
    (hinfo : getImageInfo decodeCfg cachedPath = .ok (fmt, sz)) :
    (generatePreview cfg counters fileKey fileContentType false
        (some cachedPath) download put decodeCfg
        (fun _ => .error e)).1.toOption.map
        (fun p => (p.renderedData, p.filePath, p.cacheHit)) =
      some (renderFallbackText cachedPath e, cachedPath, true) ∧
    (previewImageAt cfg counters fileKey fileContentType false (some cachedPath)
        download put decodeCfg (fun _ => .error e) (fun _ => .error e)).1 =
      .error (.renderError e) ∧
    (generatePreview cfg counters fileKey fileContentType false (some cachedPath)
        download put decodeCfg (fun _ => .error e)).2.2.cacheDeletes = 0 ∧
    (previewImageAt cfg counters fileKey fileContentType false (some cachedPath)
        download put decodeCfg (fun _ => .error e)
        (fun _ => .error e)).2.2.cacheDeletes = 0 := by
  refine ⟨?_, ?_, ?_, ?_⟩ <;>
    simp [generatePreview, previewImageAt, renderPhase, himg, hinfo,
      Except.toOption]

/-- C1 amended witness: concrete cache-hit preview of `/cache/a.png` whose
renders fail with "encode failed": the plain preview succeeds with the
fallback text, the positioned preview fails with the render error, and no
cache deletion happens. -/
theorem render_failure_amended_witness :
    IsImageFile "image/png" = true ∧
    ((generatePreview ⟨800, 600, 8192, 4320⟩ ⟨0, 0, 0⟩ "a.png" "image/png"
            false (some "/cache/a.png") (.ok "/tmp/a.png")
            (fun _ => .ok "/cache/a.png") (fun _ => some ⟨100, 100⟩)
            (fun _ => .error "encode failed")).1.toOption.map
            (fun p => (p.renderedData, p.filePath, p.cacheHit)) =
       some (renderFallbackText "/cache/a.png" "encode failed",
             "/cache/a.png", true) ∧
    (previewImageAt ⟨800, 600, 8192, 4320⟩ ⟨0, 0, 0⟩ "a.png" "image/png" false
        (some "/cache/a.png") (.ok "/tmp/a.png") (fun _ => .ok "/cache/a.png")
        (fun _ => some ⟨100, 100⟩) (fun _ => .error "encode failed")
        (fun _ => .error "encode failed")).1 = .error (.renderError "encode failed") ∧
    (generatePreview ⟨800, 600, 8192, 4320⟩ ⟨0, 0, 0⟩ "a.png" "image/png" false
        (some "/cache/a.png") (.ok "/tmp/a.png") (fun _ => .ok "/cache/a.png")
        (fun _ => some ⟨100, 100⟩)
        (fun _ => .error "encode failed")).2.2.cacheDeletes = 0 ∧
    (previewImageAt ⟨800, 600, 8192, 4320⟩ ⟨0, 0, 0⟩ "a.png" "image/png" false
        (some "/cache/a.png") (.ok "/tmp/a.png") (fun _ => .ok "/cache/a.png")
        (fun _ => some ⟨100, 100⟩) (fun _ => .error "encode failed")
        (fun _ => .error "encode failed")).2.2.cacheDeletes = 0) :=
  ⟨by decide,
   render_failure_amended ⟨800, 600, 8192, 4320⟩ ⟨0, 0, 0⟩ "a.png" "image/png"
     "/cache/a.png" "encode failed" (fun _ => some ⟨100, 100⟩) .png ⟨100, 100⟩
     (.ok "/tmp/a.png") (fun _ => .ok "/cache/a.png") (by decide) (by decide)⟩

/-! ### C10 — preview counters and hit rate -/

/-- C10: `generatePreview` increments the preview counter on every call,
including calls rejected with a format error before any cache or network
access; consequently a rejected call leaves `TotalPreviews` strictly above
`CacheHits + CacheMisses`; and `GetStats` reports the hit rate as
`CacheHits / TotalPreviews * 100` whenever any preview has been requested
and `0` otherwise. -/
theorem preview_counter_and_hit_rate :
    (∀ (cfg : MgrConfig) (counters : MgrCounters)
       (fileKey fileContentType : String) (force : Bool)
       (cacheGet : Option String) (download : Except String String)
       (put : String → Except String String)
       (decodeCfg : String → Option ImageSize)
       (render : String → Except String String),
      (generatePreview cfg counters fileKey fileContentType force cacheGet
        download put decodeCfg render).2.1.previewCount =
        counters.previewCount + 1) ∧
    ((generatePreview ⟨800, 600, 8192, 4320⟩ ⟨0, 0, 0⟩ "doc.txt" "text/plain"
        false none (.error "e") (fun _ => .error "e") (fun _ => none)
        (fun _ => .error "e")).2.1 = ⟨1, 0, 0⟩ ∧
      (GetStats ⟨1, 0, 0⟩).cacheHits + (GetStats ⟨1, 0, 0⟩).cacheMisses <
        (GetStats ⟨1, 0, 0⟩).totalPreviews) ∧
    (∀ counters : MgrCounters, 0 < counters.previewCount →
      (GetStats counters).cacheHitRate =
        (counters.cacheHitCount : ℚ) / (counters.previewCount : ℚ) * 100) ∧
    (∀ counters : MgrCounters, counters.previewCount ≤ 0 →
      (GetStats counters).cacheHitRate = 0) := by
  refine ⟨?_, ⟨by decide, by decide⟩, ?_, ?_⟩
  · intro cfg counters fileKey fileContentType force cacheGet download put
      decodeCfg render
    by_cases himg : IsImageFile fileContentType
    · simp only [generatePreview, himg]
      cases hsel : (if force then none else cacheGet) with
      | some p => simp [renderPhase_counters]
      | none =>
        cases download with
        | error e => simp
        | ok dp => simp [renderPhase_counters]
    · simp [generatePreview, himg]
  · intro counters h
    simp [GetStats, cacheHitRate, h]
  · intro counters h
    simp [GetStats, cacheHitRate, not_lt.mpr h]

/-- C10 witness: at 10 previews with 7 hits the reported rate is
`7 / 10 * 100`, and with no previews it is `0`. -/
theorem preview_counter_and_hit_rate_witness :
    (GetStats ⟨10, 7, 3⟩).cacheHitRate =
      (((7 : Int) : ℚ) / ((10 : Int) : ℚ) * 100) ∧
    (GetStats ⟨0, 0, 0⟩).cacheHitRate = 0 :=
  ⟨preview_counter_and_hit_rate.2.2.1 ⟨10, 7, 3⟩ (by decide),
   preview_counter_and_hit_rate.2.2.2 ⟨0, 0, 0⟩ (by decide)⟩

/-- A branch on strict comparison is the minimum. -/
lemma ite_lt_eq_min (a b : ℚ) : (if b < a then b else a) = min a b := by
  rcases lt_or_ge b a with hlt | hge
  · rw [if_pos hlt, min_eq_right hlt.le]
  · rw [if_neg (not_lt.mpr hge), min_eq_left hge]

/-- Truncation toward zero of a non-negative rational is non-negative. -/
lemma truncQ_nonneg (q : ℚ) (h : 0 ≤ q) : 0 ≤ truncQ q := by
  unfold truncQ
  rw [if_neg (not_lt.mpr h)]
  exact Int.floor_nonneg.mpr h

/-- The renderer's zero-guard equals a clamp to at least 1 on non-negative
cell counts. -/
lemma ite_eq_zero_eq_max (n : Int) (h : 0 ≤ n) :
    (if n = 0 then 1 else n) = max 1 n := by
  split <;> omega

/-- The manager's `< 1` guard equals a clamp to at least 1. -/
lemma ite_lt_one_eq_max (n : Int) : (if n < 1 then 1 else n) = max 1 n := by
  split <;> omega

/-! ### C9 — terminal cell footprint -/

/-- C9: for positive image pixel sizes and a positive target pixel box, the
cell-footprint computation of the renderer (`calculateTerminalCells`) uses
the uniform scale factor `min(scaleX, scaleY)` capped at 1.0 (so it never
exceeds 1 — no upscaling), converts pixels to cells with an 8-px-wide,
16-px-high cell and a 2:1 aspect correction on the row axis (columns
`⌊w·s/8⌋`, rows `⌊h·s/16⌋`), clamps both counts to at least 1, and the
manager's `estimateCellUsage` computes exactly the same footprint when a
display size is configured. -/
theorem cell_footprint_spec (w h mw mh capsW capsH : Int)
    (hw : 0 < w) (hh : 0 < h) (hmw : 0 < mw) (hmh : 0 < mh) :
    specUniformScale w h mw mh ≤ 1 ∧
    calculateTerminalCells w h mw mh =
      (max 1 (truncQ ((w : ℚ) * specUniformScale w h mw mh / 8)),
       max 1 (truncQ ((h : ℚ) * specUniformScale w h mw mh / 16))) ∧
    estimateCellUsage mw mh capsW capsH w h = calculateTerminalCells w h mw mh ∧
    1 ≤ (calculateTerminalCells w h mw mh).1 ∧
    1 ≤ (calculateTerminalCells w h mw mh).2 := by
  have hqw : (0 : ℚ) < (w : ℚ) := by exact_mod_cast hw
  have hqh : (0 : ℚ) < (h : ℚ) := by exact_mod_cast hh
  have hqmw : (0 : ℚ) < (mw : ℚ) := by exact_mod_cast hmw
  have hqmh : (0 : ℚ) < (mh : ℚ) := by exact_mod_cast hmh
  have hw0 : (w : ℚ) ≠ 0 := ne_of_gt hqw
  have hh0 : (h : ℚ) ≠ 0 := ne_of_gt hqh
  have h2h : (0 : ℚ) < 2 * (h : ℚ) := by linarith
  have hs_pos : 0 < specUniformScale w h mw mh :=
    lt_min (lt_min (div_pos hqmw hqw) (div_pos hqmh h2h)) one_pos
  have hcols_nonneg : 0 ≤ truncQ ((w : ℚ) * specUniformScale w h mw mh / 8) :=
    truncQ_nonneg _ (div_nonneg (mul_nonneg hqw.le hs_pos.le) (by norm_num))
  have hrows_nonneg : 0 ≤ truncQ ((h : ℚ) * specUniformScale w h mw mh / 16) :=
    truncQ_nonneg _ (div_nonneg (mul_nonneg hqh.le hs_pos.le) (by norm_num))
  have hsx : ((mw : ℚ) / 8) / ((w : ℚ) / 8) = (mw : ℚ) / (w : ℚ) := by
    field_simp
  have hsy : ((mh : ℚ) / 16) / ((h : ℚ) / 16 * 2) = (mh : ℚ) / (2 * (h : ℚ)) := by
    rw [div_eq_div_iff (by positivity) (ne_of_gt h2h)]
    ring
  have hargc : (w : ℚ) / 8 *
      min (min ((mw : ℚ) / (w : ℚ)) ((mh : ℚ) / (2 * (h : ℚ)))) 1 =
      (w : ℚ) * specUniformScale w h mw mh / 8 := by
    unfold specUniformScale; ring
  have hargr : (h : ℚ) / 16 * 2 *
      min (min ((mw : ℚ) / (w : ℚ)) ((mh : ℚ) / (2 * (h : ℚ)))) 1 / 2 =
      (h : ℚ) * specUniformScale w h mw mh / 16 := by
    unfold specUniformScale; ring
  have hkey : calculateTerminalCells w h mw mh =
      (max 1 (truncQ ((w : ℚ) * specUniformScale w h mw mh / 8)),
       max 1 (truncQ ((h : ℚ) * specUniformScale w h mw mh / 16))) := by
    simp only [calculateTerminalCells, gt_iff_lt, hsx, hsy, ite_lt_eq_min]
    rw [hargc, hargr, ite_eq_zero_eq_max _ hcols_nonneg,
      ite_eq_zero_eq_max _ hrows_nonneg]
  have hkey2 : estimateCellUsage mw mh capsW capsH w h =
      (max 1 (truncQ ((w : ℚ) * specUniformScale w h mw mh / 8)),
       max 1 (truncQ ((h : ℚ) * specUniformScale w h mw mh / 16))) := by
    have hfb : ¬ (mw ≤ 0 ∨ mh ≤ 0) := by omega
    simp only [estimateCellUsage, gt_iff_lt, if_neg hfb, hsx, hsy,
      ite_lt_eq_min]
    rw [hargc, hargr, ite_lt_one_eq_max, ite_lt_one_eq_max]
  refine ⟨min_le_right _ _, hkey, hkey2.trans hkey.symm, ?_, ?_⟩
  · rw [hkey]; exact le_max_left _ _
  · rw [hkey]; exact le_max_left _ _

/-- C9 witness: a 100×100 image in an 8192×4320 pixel box satisfies the
positivity hypotheses, so the no-upscale cap and the at-least-1-cell
clamps hold there. -/
theorem cell_footprint_spec_witness :
    specUniformScale 100 100 8192 4320 ≤ 1 ∧
    1 ≤ (calculateTerminalCells 100 100 8192 4320).1 ∧
    1 ≤ (calculateTerminalCells 100 100 8192 4320).2 :=
  ⟨(cell_footprint_spec 100 100 8192 4320 8192 4320
      (by decide) (by decide) (by decide) (by decide)).1,
   (cell_footprint_spec 100 100 8192 4320 8192 4320
      (by decide) (by decide) (by decide) (by decide)).2.2.2.1,
   (cell_footprint_spec 100 100 8192 4320 8192 4320
      (by decide) (by decide) (by decide) (by decide)).2.2.2.2⟩

end R2S3
